import Mathlib

/-!
Verification of the particle-swarm-optimisation module
`src/pso-python/particle_swarm_optimisation.py` against its specification.

Modelling choices:
- Real scalars are modelled as rationals so everything is executable.
- Python's `float('inf')` best values are modelled as `Option ℚ` with
  `none` standing for plus infinity.
- The global random generator `random.random()` is modelled as a stream
  `rs : ℕ → ℚ` together with an explicit index that counts how many draws
  have been consumed; every operation that draws threads the index.
- Numpy arrays are mutable storage.  The constructor writes
  `self.best_position = self.position`, so the particle's best-position
  array is the very same storage as its position array until the first
  personal-best update replaces it with `np.copy(...)`.  We model this
  with the flag `bestAliased`: while it is `true`, the observable best
  position is read from `position` itself.
-/

namespace PSO

/-- A 2-D vector (numpy array of length 2 in the source). -/
structure Vec where
  x : ℚ
  y : ℚ
deriving DecidableEq, Repr

instance : Add Vec := ⟨fun a b => ⟨a.x + b.x, a.y + b.y⟩⟩

instance : Sub Vec := ⟨fun a b => ⟨a.x - b.x, a.y - b.y⟩⟩

instance : SMul ℚ Vec := ⟨fun c v => ⟨c * v.x, c * v.y⟩⟩

theorem Vec.add_def (a b : Vec) : a + b = ⟨a.x + b.x, a.y + b.y⟩ := rfl

theorem Vec.sub_def (a b : Vec) : a - b = ⟨a.x - b.x, a.y - b.y⟩ := rfl

theorem Vec.smul_def (c : ℚ) (v : Vec) : c • v = ⟨c * v.x, c * v.y⟩ := rfl

/-- Source constant `CURRENT_COMPENSATION = 0.5`. -/
def CURRENT_COMPENSATION : ℚ := 1/2

/-- Source constant `PERSONAL_BEST_COMPENSATION = 0.65`. -/
def PERSONAL_BEST_COMPENSATION : ℚ := 65/100

/-- Source constant `GLOBAL_BEST_COMPENSATION = 1.0`. -/
def GLOBAL_BEST_COMPENSATION : ℚ := 1

/-- A particle.  `best_position` holds the contents of the separate
best-position array; while `bestAliased = true` the best-position array is
the same storage as `position` (the constructor's
`self.best_position = self.position`), so reads of the best position must
go through `Particle.bestPosObs`. -/
structure Particle where
  position : Vec
  best_position : Vec
  bestAliased : Bool
  best_position_value : Option ℚ
  velocity : Vec
deriving DecidableEq, Repr

/-- The value an observer reads from the particle's `best_position`
attribute: the position array itself while the constructor's alias is
still in place, the separately stored copy afterwards. -/
def Particle.bestPosObs (p : Particle) : Vec :=
  if p.bestAliased then p.position else p.best_position

/-- One draw of `((-1) ** (random.random() >= 0.5)) * random.random() * 50`:
two stream values are consumed, the first decides the sign, the second the
magnitude in `[0, 50)`. -/
def randPM50 (rs : ℕ → ℚ) (i : ℕ) : ℚ × ℕ :=
  (if (1:ℚ)/2 ≤ rs i then -(rs (i+1) * 50) else rs (i+1) * 50, i + 2)

/-- `Particle.__init__`: random position with each axis in `±50`, the
best-position array aliased to the position array, best value infinite,
velocity zero.  Consumes four draws (sign and magnitude for each axis). -/
def particleInit (rs : ℕ → ℚ) (i : ℕ) : Particle × ℕ :=
  let rx := randPM50 rs i
  let ry := randPM50 rs rx.2
  (⟨⟨rx.1, ry.1⟩, ⟨rx.1, ry.1⟩, true, none, ⟨0, 0⟩⟩, ry.2)

/-- `get_particle_fitness`: `position[0]**2 + position[1]**2 + 2`. -/
def get_particle_fitness (p : Particle) : ℚ :=
  p.position.x ^ 2 + p.position.y ^ 2 + 2

/-- `Particle.move`: `self.position += self.velocity` (in-place, so an
aliased best-position array moves with it; `bestAliased` tracks that). -/
def Particle.move (p : Particle) : Particle :=
  { p with position := p.position + p.velocity }

/-- Comparison `candidate < current` where the current value may be the
float infinity (`none`). -/
def ltInf (c : ℚ) : Option ℚ → Bool
  | none => true
  | some v => decide (c < v)

/-- The search space (class `SearchSpace`). -/
structure SearchSpace where
  num_particles : ℕ
  particles : List Particle
  target : ℚ
  target_exit_boundary : ℚ
  global_best_position : Vec
  global_best_value : Option ℚ
deriving DecidableEq, Repr

/-- The list comprehension `[Particle() for _ in range(n)]`: particles are
created in order, each consuming its draws before the next starts. -/
def particlesInit (rs : ℕ → ℚ) : ℕ → ℕ → List Particle × ℕ
  | 0, i => ([], i)
  | n+1, i =>
    let pr := particleInit rs i
    let rest := particlesInit rs n pr.2
    (pr.1 :: rest.1, rest.2)

/-- `SearchSpace.__init__`: creates the particles, stores target and exit
boundary, then draws a random global best position, with the global best
value infinite. -/
def searchSpaceInit (target target_exit_boundary : ℚ) (number_particles : ℕ)
    (rs : ℕ → ℚ) (i : ℕ) : SearchSpace × ℕ :=
  let ps := particlesInit rs number_particles i
  let gx := randPM50 rs ps.2
  let gy := randPM50 rs gx.2
  ({ num_particles := number_particles
     particles := ps.1
     target := target
     target_exit_boundary := target_exit_boundary
     global_best_position := ⟨gx.1, gy.1⟩
     global_best_value := none }, gy.2)

/-- The kinds of configuration error the specification describes. -/
inductive ConfigurationError where
  | badParticleCount
  | badExitBoundary
  | badMaxIterations
deriving DecidableEq, Repr

/-- `SearchSpace.__init__` viewed as a fallible constructor.  The source
contains no validation and no raise statement, so construction always
returns normally; the `Except` shape only makes the absence of a
`ConfigurationError` expressible. -/
def searchSpaceInitE (target target_exit_boundary : ℚ) (number_particles : ℕ)
    (rs : ℕ → ℚ) (i : ℕ) : Except ConfigurationError (SearchSpace × ℕ) :=
  .ok (searchSpaceInit target target_exit_boundary number_particles rs i)

/-- Body of the `update_particle_best` loop for one particle: evaluate the
fitness at the current position and, when it beats the recorded best,
store `np.copy(position)` (ending any alias) and the new value. -/
def updateParticleBest1 (p : Particle) : Particle :=
  let candidate := get_particle_fitness p
  if ltInf candidate p.best_position_value then
    { p with best_position := p.position
             bestAliased := false
             best_position_value := some candidate }
  else p

/-- `SearchSpace.update_particle_best`: the loop touches each particle
independently. -/
def update_particle_best (s : SearchSpace) : SearchSpace :=
  { s with particles := s.particles.map updateParticleBest1 }

/-- The `update_global_best` loop: the running pair (best position, best
value) is updated in place, so later particles compare against earlier
updates. -/
def globalBestScan : List Particle → Vec × Option ℚ → Vec × Option ℚ
  | [], acc => acc
  | p :: ps, acc =>
    let candidate := get_particle_fitness p
    if ltInf candidate acc.2 then globalBestScan ps (p.position, some candidate)
    else globalBestScan ps acc

/-- `SearchSpace.update_global_best`. -/
def update_global_best (s : SearchSpace) : SearchSpace :=
  let acc := globalBestScan s.particles (s.global_best_position, s.global_best_value)
  { s with global_best_position := acc.1, global_best_value := acc.2 }

/-- Body of the `iterate_particles` loop for one particle, given the two
fresh draws `r1` (personal term) and `r2` (global term): compute the new
velocity, assign it, and move. -/
def iterateParticle1 (global_best_position : Vec) (p : Particle) (r1 r2 : ℚ) : Particle :=
  let personal_adjustment := (PERSONAL_BEST_COMPENSATION * r1) • (p.bestPosObs - p.position)
  let global_adjustment := (GLOBAL_BEST_COMPENSATION * r2) • (global_best_position - p.position)
  let updated_velocity := CURRENT_COMPENSATION • p.velocity + personal_adjustment + global_adjustment
  Particle.move { p with velocity := updated_velocity }

/-- The `iterate_particles` loop over the particle list: each particle
draws `random.random()` twice, in list order. -/
def iterParts (global_best_position : Vec) (rs : ℕ → ℚ) :
    List Particle → ℕ → List Particle × ℕ
  | [], i => ([], i)
  | p :: ps, i =>
    let p1 := iterateParticle1 global_best_position p (rs i) (rs (i+1))
    let rest := iterParts global_best_position rs ps (i+2)
    (p1 :: rest.1, rest.2)

/-- `SearchSpace.iterate_particles`. -/
def iterate_particles (s : SearchSpace) (rs : ℕ → ℚ) (i : ℕ) : SearchSpace × ℕ :=
  let pr := iterParts s.global_best_position rs s.particles i
  ({ s with particles := pr.1 }, pr.2)

/-- The termination condition of the `__main__` loop:
`abs(target - global_best_value) <= target_exit_boundary`.  While the
global best value is still `float('inf')` the absolute difference is
infinite, hence never below a finite boundary. -/
def hasConverged (s : SearchSpace) : Bool :=
  match s.global_best_value with
  | none => false
  | some v => decide (|s.target - v| ≤ s.target_exit_boundary)

/-- The two best-update phases a cycle runs before the convergence test. -/
def postBestState (s : SearchSpace) : SearchSpace :=
  update_global_best (update_particle_best s)

/-- Result of a run: final search space, `FITNESS_RECORD`, the final
iteration counter `I`, and the random-stream index. -/
structure RunResult where
  space : SearchSpace
  fitness_record : List (Option ℚ)
  iterations : ℕ
  rindex : ℕ
deriving DecidableEq, Repr

/-- The `__main__` while-loop.  `fuel` is the number of loop iterations
still allowed (`MAX_ITERATIONS - I`); each pass updates personal bests,
updates the global best, breaks if converged, otherwise iterates the
particles, appends the global best value to the record and increments the
counter. -/
def runLoop (rs : ℕ → ℚ) : ℕ → SearchSpace → List (Option ℚ) → ℕ → ℕ → RunResult
  | 0, s, record, it, i => ⟨s, record, it, i⟩
  | fuel+1, s, record, it, i =>
    let s2 := postBestState s
    if hasConverged s2 then ⟨s2, record, it, i⟩
    else
      let pr := iterate_particles s2 rs i
      runLoop rs fuel pr.1 (record ++ [pr.1.global_best_value]) (it+1) pr.2

/-- A whole run of the `__main__` script: construct the search space, then
run the loop with an empty record and counter zero. -/
def runPSO (target target_exit_boundary : ℚ) (number_particles max_iterations : ℕ)
    (rs : ℕ → ℚ) : RunResult :=
  let si := searchSpaceInit target target_exit_boundary number_particles rs 0
  runLoop rs max_iterations si.1 [] 0 si.2

/-- One full cycle ignoring the termination test: both best updates then
the particle iteration.  Used to name the per-cycle states of a run. -/
def cycleStep (rs : ℕ → ℚ) (si : SearchSpace × ℕ) : SearchSpace × ℕ :=
  iterate_particles (postBestState si.1) rs si.2

/-- The state (and stream index) at the start of cycle `n`. -/
def stateAt (rs : ℕ → ℚ) (s0 : SearchSpace) (i0 : ℕ) : ℕ → SearchSpace × ℕ
  | 0 => (s0, i0)
  | n+1 => cycleStep rs (stateAt rs s0 i0 n)

/-- Minimum of two values in `ℚ ∪ \x7b∞\x7d` (`none` is infinity). -/
def minO : Option ℚ → Option ℚ → Option ℚ
  | none, b => b
  | some a, none => some a
  | some a, some b => some (min a b)

/-- Order on `ℚ ∪ \x7b∞\x7d` (`none` is infinity). -/
def leO : Option ℚ → Option ℚ → Bool
  | _, none => true
  | none, some _ => false
  | some a, some b => decide (a ≤ b)

/-- Minimum fitness over the current positions of a particle list
(infinite for the empty list). -/
def minFit : List Particle → Option ℚ
  | [] => none
  | p :: ps => minO (some (get_particle_fitness p)) (minFit ps)

/-- Minimum, over cycles `0..n` of the run and over all particles, of the
fitness at the particle's current position in that cycle. -/
def minFitUpTo (rs : ℕ → ℚ) (s0 : SearchSpace) (i0 : ℕ) : ℕ → Option ℚ
  | 0 => minFit (stateAt rs s0 i0 0).1.particles
  | n+1 => minO (minFitUpTo rs s0 i0 n) (minFit (stateAt rs s0 i0 (n+1)).1.particles)

/-- The all-zeros random stream, used for concrete scenarios: every
position it produces is the origin. -/
def rs0 : ℕ → ℚ := fun _ => 0

/-- Scenario A of the specification: one particle, forced to the origin by
the all-zeros stream, target 2, exit boundary 0. -/
def scenarioA : SearchSpace × ℕ := searchSpaceInit 2 0 1 rs0 0

/-- A freshly constructed particle (all draws zero), before any
personal-best update: its best-position array still aliases its position
array. -/
def aliasParticle : Particle := (particleInit rs0 0).1

/-- The fresh particle after one velocity update (global best at (1,0),
draws 0 and 1) and the move it triggers, still with no personal-best
update in between. -/
def aliasMoved : Particle := iterateParticle1 ⟨1, 0⟩ aliasParticle 0 1

/-- The particle of scenario A after its first personal-best update; its
recorded best value equals its current fitness, so a second update is a
no-op. -/
def settledParticle : Particle := updateParticleBest1 aliasParticle

/- Helper lemmas about the infinity-aware minimum and order. -/

theorem minO_none_right (a : Option ℚ) : minO a none = a := by
  cases a <;> rfl

theorem leO_minO_left (a b : Option ℚ) : leO (minO a b) a = true := by
  cases a with
  | none => cases b <;> rfl
  | some x =>
    cases b with
    | none => simp [minO, leO]
    | some y => simp [minO, leO]

theorem minO_shift (gv : Option ℚ) (c : ℚ) (X : Option ℚ) :
    minO (if ltInf c gv = true then some c else gv) X = minO gv (minO (some c) X) := by
  cases gv with
  | none => simp [ltInf, minO]
  | some v =>
    by_cases h : c < v
    · rw [if_pos (by simp [ltInf, h])]
      cases X with
      | none => simp [minO, min_eq_right (le_of_lt h)]
      | some x =>
        have hm : min v (min c x) = min c x :=
          min_eq_right (le_trans (min_le_left c x) (le_of_lt h))
        simp [minO, hm]
    · rw [if_neg (by simp [ltInf, h])]
      have hv : v ≤ c := not_lt.mp h
      cases X with
      | none => simp [minO, min_eq_left hv]
      | some x =>
        have hm : min v (min c x) = min v x := by
          rw [← min_assoc, min_eq_left hv]
        simp [minO, hm]

/-- C1: one velocity update draws two fresh scalars from the random
stream, one for the personal term and one for the global term, each
multiplying both axes at once, and sets
velocity to inertia·velocity + (personal·r1)·(best − position)
+ (global·r2)·(globalBest − position) with weights 0.5, 0.65 and 1.0;
`move` then adds the new velocity to the position. -/
theorem claim_C1 :
    (∀ (g : Vec) (p : Particle) (r1 r2 : ℚ),
        (iterateParticle1 g p r1 r2).velocity =
          CURRENT_COMPENSATION • p.velocity
            + (PERSONAL_BEST_COMPENSATION * r1) • (p.bestPosObs - p.position)
            + (GLOBAL_BEST_COMPENSATION * r2) • (g - p.position)
        ∧ (iterateParticle1 g p r1 r2).position =
            p.position + (iterateParticle1 g p r1 r2).velocity)
    ∧ CURRENT_COMPENSATION = 1/2
    ∧ PERSONAL_BEST_COMPENSATION = 65/100
    ∧ GLOBAL_BEST_COMPENSATION = 1
    ∧ ∀ (g : Vec) (rs : ℕ → ℚ) (p : Particle) (ps : List Particle) (i : ℕ),
        iterParts g rs (p :: ps) i =
          (iterateParticle1 g p (rs i) (rs (i+1)) :: (iterParts g rs ps (i+2)).1,
           (iterParts g rs ps (i+2)).2) :=
  ⟨fun _ _ _ _ => ⟨rfl, rfl⟩, rfl, rfl, rfl, fun _ _ _ _ _ => rfl⟩

/-- C5: the constructor aliases the best-position array to the position
array, so before the first personal-best update a move changes the
observable best position as well — the code contradicts the claimed
separate-storage behaviour.  Concretely: the fresh particle sits at the
origin with its best position reading the origin; after one velocity
update (no personal-best update in between) and the move it triggers, the
particle's best position reads (1,0), no longer its value at
construction. -/
theorem claim_C5 :
    aliasParticle.position = ⟨0, 0⟩
    ∧ aliasParticle.bestPosObs = aliasParticle.position
    ∧ aliasParticle.bestAliased = true
    ∧ aliasMoved.best_position_value = aliasParticle.best_position_value
    ∧ aliasMoved.position = ⟨1, 0⟩
    ∧ aliasMoved.bestPosObs = ⟨1, 0⟩
    ∧ aliasMoved.bestPosObs ≠ aliasParticle.bestPosObs := by
  with_unfolding_all decide

/-- C6 counterexample: the claim says a configuration with
particleCount = 0 must fail with a ConfigurationError before any particle
is created; in the code construction with zero particles returns
normally (and builds the empty swarm). -/
theorem claim_C6_counterexample :
    (searchSpaceInitE 2 0 0 rs0 0).isOk = true
    ∧ (searchSpaceInit 2 0 0 rs0 0).1.particles = [] :=
  ⟨rfl, rfl⟩

/-- C6 (amended): the code performs no configuration validation at all:
construction returns normally for every configuration, a zero particle
count just yields an empty swarm, and a zero iteration budget just runs
zero cycles; no exceptional condition is ever raised. -/
theorem claim_C6 (t b : ℚ) (n : ℕ) (rs : ℕ → ℚ) (i : ℕ)
    (s : SearchSpace) (rec : List (Option ℚ)) (it j : ℕ) :
    searchSpaceInitE t b n rs i = .ok (searchSpaceInit t b n rs i)
    ∧ (searchSpaceInitE t b n rs i).isOk = true
    ∧ (searchSpaceInit t b 0 rs i).1.particles = []
    ∧ runLoop rs 0 s rec it j = ⟨s, rec, it, j⟩ :=
  ⟨rfl, rfl, rfl, rfl⟩

/-- C8: with an iteration budget of zero the run performs no cycle: the
returned state is the freshly constructed search space, the fitness
record is empty, the reported iteration count is zero, the global best
value is still infinite, and every particle is exactly as initialized. -/
theorem claim_C8 (t b : ℚ) (n : ℕ) (rs : ℕ → ℚ) :
    runPSO t b n 0 rs =
      ⟨(searchSpaceInit t b n rs 0).1, [], 0, (searchSpaceInit t b n rs 0).2⟩
    ∧ (runPSO t b n 0 rs).space.global_best_value = none
    ∧ (runPSO t b n 0 rs).space.particles = (searchSpaceInit t b n rs 0).1.particles :=
  ⟨rfl, rfl, rfl⟩

/-- C9: two runs with the same configuration and pointwise-identical
random streams coincide: the whole run result (final space, fitness
record, iteration count) is equal, and so is the state at the start of
every cycle, hence every per-cycle position and velocity trajectory. -/
theorem claim_C9 (t b : ℚ) (n m : ℕ) (rs1 rs2 : ℕ → ℚ) (h : ∀ k, rs1 k = rs2 k) :
    runPSO t b n m rs1 = runPSO t b n m rs2
    ∧ ∀ j, stateAt rs1 (searchSpaceInit t b n rs1 0).1 (searchSpaceInit t b n rs1 0).2 j
          = stateAt rs2 (searchSpaceInit t b n rs2 0).1 (searchSpaceInit t b n rs2 0).2 j := by
  have hrs : rs1 = rs2 := funext h
  subst hrs
  exact ⟨rfl, fun _ => rfl⟩

theorem updateParticleBest1_position (p : Particle) :
    (updateParticleBest1 p).position = p.position := by
  unfold updateParticleBest1
  by_cases h : ltInf (get_particle_fitness p) p.best_position_value = true
  · simp [h]
  · simp [h]

theorem updateParticleBest1_fitness (p : Particle) :
    get_particle_fitness (updateParticleBest1 p) = get_particle_fitness p := by
  unfold get_particle_fitness
  rw [updateParticleBest1_position]

theorem updateParticleBest1_leO (p : Particle) :
    leO (updateParticleBest1 p).best_position_value p.best_position_value = true := by
  unfold updateParticleBest1
  cases hb : p.best_position_value with
  | none => simp [hb, ltInf, leO]
  | some v =>
    by_cases h : get_particle_fitness p < v
    · simp [hb, ltInf, h, leO, le_of_lt h]
    · simp [hb, ltInf, h, leO]

theorem iterateParticle1_best_value (g : Vec) (p : Particle) (r1 r2 : ℚ) :
    (iterateParticle1 g p r1 r2).best_position_value = p.best_position_value := rfl

theorem iterParts_best_values (g : Vec) (rs : ℕ → ℚ) :
    ∀ (ps : List Particle) (i : ℕ),
      (iterParts g rs ps i).1.map Particle.best_position_value
        = ps.map Particle.best_position_value := by
  intro ps
  induction ps with
  | nil => intro i; rfl
  | cons p ps ih =>
    intro i
    simp [iterParts, iterateParticle1_best_value, ih]

theorem minFit_map_updateParticleBest1 (ps : List Particle) :
    minFit (ps.map updateParticleBest1) = minFit ps := by
  induction ps with
  | nil => rfl
  | cons p ps ih => simp [minFit, updateParticleBest1_fitness, ih]

theorem globalBestScan_value :
    ∀ (ps : List Particle) (acc : Vec × Option ℚ),
      (globalBestScan ps acc).2 = minO acc.2 (minFit ps) := by
  intro ps
  induction ps with
  | nil =>
    intro acc
    show acc.2 = minO acc.2 none
    rw [minO_none_right]
  | cons p ps ih =>
    intro acc
    simp only [globalBestScan]
    by_cases h : ltInf (get_particle_fitness p) acc.2 = true
    · rw [if_pos h, ih, minFit,
        ← minO_shift acc.2 (get_particle_fitness p) (minFit ps), if_pos h]
    · rw [if_neg h, ih, minFit,
        ← minO_shift acc.2 (get_particle_fitness p) (minFit ps), if_neg h]

theorem globalBestScan_improve :
    ∀ (ps : List Particle) (acc : Vec × Option ℚ),
      globalBestScan ps acc = acc
      ∨ globalBestScan ps acc
          ∈ ps.map (fun p => (p.position, some (get_particle_fitness p))) := by
  intro ps
  induction ps with
  | nil => intro acc; exact Or.inl rfl
  | cons p ps ih =>
    intro acc
    simp only [globalBestScan, List.map_cons]
    by_cases h : ltInf (get_particle_fitness p) acc.2 = true
    · rw [if_pos h]
      rcases ih (p.position, some (get_particle_fitness p)) with heq | hmem
      · exact Or.inr (by rw [heq]; exact List.mem_cons_self _ _)
      · exact Or.inr (List.mem_cons_of_mem _ hmem)
    · rw [if_neg h]
      rcases ih acc with heq | hmem
      · exact Or.inl heq
      · exact Or.inr (List.mem_cons_of_mem _ hmem)

theorem update_particle_best_gbv (s : SearchSpace) :
    (update_particle_best s).global_best_value = s.global_best_value := rfl

theorem update_global_best_particles (s : SearchSpace) :
    (update_global_best s).particles = s.particles := rfl

theorem iterate_particles_gbv (s : SearchSpace) (rs : ℕ → ℚ) (i : ℕ) :
    (iterate_particles s rs i).1.global_best_value = s.global_best_value := rfl

theorem postBestState_gbv (s : SearchSpace) :
    (postBestState s).global_best_value
      = minO s.global_best_value (minFit s.particles) := by
  show (globalBestScan (update_particle_best s).particles
      ((update_particle_best s).global_best_position,
       (update_particle_best s).global_best_value)).2
    = minO s.global_best_value (minFit s.particles)
  rw [globalBestScan_value]
  show minO s.global_best_value (minFit (s.particles.map updateParticleBest1))
    = minO s.global_best_value (minFit s.particles)
  rw [minFit_map_updateParticleBest1]

theorem stateAt_gbv (rs : ℕ → ℚ) (s0 : SearchSpace) (i0 n : ℕ) :
    (stateAt rs s0 i0 (n+1)).1.global_best_value
      = (postBestState (stateAt rs s0 i0 n).1).global_best_value := by
  show (iterate_particles (postBestState (stateAt rs s0 i0 n).1) rs
      (stateAt rs s0 i0 n).2).1.global_best_value = _
  rw [iterate_particles_gbv]

theorem postBest_stateAt_gbv (rs : ℕ → ℚ) (s0 : SearchSpace) (i0 : ℕ)
    (h0 : s0.global_best_value = none) :
    ∀ n, (postBestState (stateAt rs s0 i0 n).1).global_best_value
      = minFitUpTo rs s0 i0 n := by
  intro n
  induction n with
  | zero =>
    rw [postBestState_gbv]
    show minO s0.global_best_value (minFit s0.particles) = _
    rw [h0]
    rfl
  | succ n ih =>
    rw [postBestState_gbv, stateAt_gbv, ih]
    rfl

theorem postBest_gbv_antitone (rs : ℕ → ℚ) (s0 : SearchSpace) (i0 n : ℕ) :
    leO (postBestState (stateAt rs s0 i0 (n+1)).1).global_best_value
        (postBestState (stateAt rs s0 i0 n).1).global_best_value = true := by
  rw [postBestState_gbv, stateAt_gbv]
  exact leO_minO_left _ _

theorem forall2_leO_map (l : List Particle) :
    List.Forall₂ (fun a b => leO a b = true)
      (l.map (fun q => (updateParticleBest1 q).best_position_value))
      (l.map (fun q => q.best_position_value)) := by
  induction l with
  | nil => exact List.Forall₂.nil
  | cons q l ih => exact List.Forall₂.cons (updateParticleBest1_leO q) ih

theorem cycle_best_values_le (rs : ℕ → ℚ) (s0 : SearchSpace) (i0 n : ℕ) :
    List.Forall₂ (fun a b => leO a b = true)
      ((stateAt rs s0 i0 (n+1)).1.particles.map Particle.best_position_value)
      ((stateAt rs s0 i0 n).1.particles.map Particle.best_position_value) := by
  have h1 : (stateAt rs s0 i0 (n+1)).1.particles.map Particle.best_position_value
      = (stateAt rs s0 i0 n).1.particles.map
          (fun q => (updateParticleBest1 q).best_position_value) := by
    show (iterParts (postBestState (stateAt rs s0 i0 n).1).global_best_position rs
        (postBestState (stateAt rs s0 i0 n).1).particles
        (stateAt rs s0 i0 n).2).1.map Particle.best_position_value = _
    rw [iterParts_best_values]
    show ((stateAt rs s0 i0 n).1.particles.map updateParticleBest1).map
        Particle.best_position_value = _
    rw [List.map_map]
    rfl
  rw [h1]
  exact forall2_leO_map _

/-- C2: one call of the global-best update sets the global best value to
the minimum of its previous value and the fitnesses at the particles'
current positions, and when the value changes the new best
position/value pair is one particle's current position with its current
fitness; along a run started with an infinite global best, the value
after each cycle's best-update phase equals the minimum fitness seen at
any particle's current position over all cycles so far, and is
non-increasing from cycle to cycle. -/
theorem claim_C2 (s : SearchSpace) (rs : ℕ → ℚ) (s0 : SearchSpace) (i0 n : ℕ)
    (h0 : s0.global_best_value = none) :
    (update_global_best s).global_best_value
        = minO s.global_best_value (minFit s.particles)
    ∧ ((update_global_best s).global_best_value ≠ s.global_best_value →
        ((update_global_best s).global_best_position,
         (update_global_best s).global_best_value)
          ∈ s.particles.map (fun p => (p.position, some (get_particle_fitness p))))
    ∧ (postBestState (stateAt rs s0 i0 n).1).global_best_value
        = minFitUpTo rs s0 i0 n
    ∧ leO (postBestState (stateAt rs s0 i0 (n+1)).1).global_best_value
          (postBestState (stateAt rs s0 i0 n).1).global_best_value = true := by
  refine ⟨?_, ?_, postBest_stateAt_gbv rs s0 i0 h0 n, postBest_gbv_antitone rs s0 i0 n⟩
  · show (globalBestScan s.particles
        (s.global_best_position, s.global_best_value)).2 = _
    exact globalBestScan_value s.particles _
  · intro hne
    rcases globalBestScan_improve s.particles
        (s.global_best_position, s.global_best_value) with heq | hmem
    · exact absurd (congrArg Prod.snd heq) hne
    · exact hmem

/-- Witness for C2 at scenario A: the global-best update improves there,
and the run-level minimum formula holds at cycle 0. -/
theorem claim_C2_witness :
    ((update_global_best scenarioA.1).global_best_position,
     (update_global_best scenarioA.1).global_best_value)
      ∈ scenarioA.1.particles.map (fun p => (p.position, some (get_particle_fitness p)))
    ∧ (postBestState (stateAt rs0 scenarioA.1 scenarioA.2 0).1).global_best_value
        = minFitUpTo rs0 scenarioA.1 scenarioA.2 0 :=
  ⟨(claim_C2 scenarioA.1 rs0 scenarioA.1 scenarioA.2 0 rfl).2.1
      (by with_unfolding_all decide),
   (claim_C2 scenarioA.1 rs0 scenarioA.1 scenarioA.2 0 rfl).2.2.1⟩

/-- C3: the comparison used by the personal-best update means "strictly
below the recorded value, infinity included"; when the current fitness is
strictly below the record the update stores the current position in
separate storage together with the new value, otherwise it changes
nothing; one update never increases the recorded value; and across each
full cycle of a run every particle's recorded best value is
non-increasing. -/
theorem claim_C3 (p : Particle) (rs : ℕ → ℚ) (s0 : SearchSpace) (i0 n : ℕ) :
    (∀ (c : ℚ) (b : Option ℚ), ltInf c b = true ↔ b = none ∨ ∃ v, b = some v ∧ c < v)
    ∧ (ltInf (get_particle_fitness p) p.best_position_value = true →
        (updateParticleBest1 p).bestPosObs = p.position
        ∧ (updateParticleBest1 p).bestAliased = false
        ∧ (updateParticleBest1 p).best_position_value
            = some (get_particle_fitness p))
    ∧ (ltInf (get_particle_fitness p) p.best_position_value = false →
        updateParticleBest1 p = p)
    ∧ leO (updateParticleBest1 p).best_position_value p.best_position_value = true
    ∧ List.Forall₂ (fun a b => leO a b = true)
        ((stateAt rs s0 i0 (n+1)).1.particles.map Particle.best_position_value)
        ((stateAt rs s0 i0 n).1.particles.map Particle.best_position_value) := by
  refine ⟨?_, ?_, ?_, updateParticleBest1_leO p, cycle_best_values_le rs s0 i0 n⟩
  · intro c b
    cases b with
    | none => simp [ltInf]
    | some v => simp [ltInf]
  · intro h
    refine ⟨?_, ?_, ?_⟩ <;> simp [updateParticleBest1, h, Particle.bestPosObs]
  · intro h
    simp [updateParticleBest1, h]

/-- Witness for C3: the first personal-best update of the scenario-A
particle fires and copies the position; a second update with the same
fitness is a no-op. -/
theorem claim_C3_witness :
    ((updateParticleBest1 aliasParticle).bestPosObs = aliasParticle.position
      ∧ (updateParticleBest1 aliasParticle).bestAliased = false
      ∧ (updateParticleBest1 aliasParticle).best_position_value
          = some (get_particle_fitness aliasParticle))
    ∧ updateParticleBest1 settledParticle = settledParticle :=
  ⟨(claim_C3 aliasParticle rs0 scenarioA.1 scenarioA.2 0).2.1
      (by with_unfolding_all decide),
   (claim_C3 settledParticle rs0 scenarioA.1 scenarioA.2 0).2.2.1
      (by with_unfolding_all decide)⟩

theorem runLoop_record_length (rs : ℕ → ℚ) :
    ∀ (fuel : ℕ) (s : SearchSpace) (rec : List (Option ℚ)) (it i : ℕ),
      (runLoop rs fuel s rec it i).fitness_record.length + it
        = (runLoop rs fuel s rec it i).iterations + rec.length := by
  intro fuel
  induction fuel with
  | zero =>
    intro s rec it i
    simp only [runLoop]
    omega
  | succ n ih =>
    intro s rec it i
    simp only [runLoop]
    by_cases h : hasConverged (postBestState s) = true
    · rw [if_pos h]
      show rec.length + it = it + rec.length
      omega
    · rw [if_neg h]
      have hrec := ih (iterate_particles (postBestState s) rs i).1
        (rec ++ [(iterate_particles (postBestState s) rs i).1.global_best_value])
        (it+1) (iterate_particles (postBestState s) rs i).2
      simp only [List.length_append, List.length_singleton] at hrec
      omega

/-- C4: the convergence test holds exactly when the global best value is
finite and within the exit boundary of the target, and a loop pass whose
post-best-update state converges stops at once: no particle iteration, no
record append, no counter increment, no random draw. -/
theorem claim_C4 :
    (∀ s : SearchSpace, hasConverged s = true ↔
        ∃ v, s.global_best_value = some v ∧ |s.target - v| ≤ s.target_exit_boundary)
    ∧ ∀ (rs : ℕ → ℚ) (fuel : ℕ) (s : SearchSpace) (rec : List (Option ℚ)) (it i : ℕ),
        hasConverged (postBestState s) = true →
        runLoop rs (fuel+1) s rec it i = ⟨postBestState s, rec, it, i⟩ := by
  constructor
  · intro s
    cases h : s.global_best_value with
    | none => simp [hasConverged, h]
    | some v => simp [hasConverged, h]
  · intro rs fuel s rec it i h
    simp [runLoop, h]

/-- Witness for C4 at scenario A, whose post-best-update state converges. -/
theorem claim_C4_witness :
    (hasConverged scenarioA.1 = true ↔
        ∃ v, scenarioA.1.global_best_value = some v
          ∧ |scenarioA.1.target - v| ≤ scenarioA.1.target_exit_boundary)
    ∧ runLoop rs0 1 scenarioA.1 [] 0 scenarioA.2 =
        ⟨postBestState scenarioA.1, [], 0, scenarioA.2⟩ :=
  ⟨claim_C4.1 scenarioA.1,
   claim_C4.2 rs0 0 scenarioA.1 [] 0 scenarioA.2 (by with_unfolding_all decide)⟩

/-- C7: in scenario A (one particle at the origin, target 2, boundary 0)
the first fitness evaluation is exactly 2, the state is not converged
before the best updates but is converged right after them, and the run
stops in the first cycle whatever the remaining budget: global best value
2, empty fitness record, counter 0, particle position unmoved. -/
theorem claim_C7 :
    scenarioA.1.particles.map get_particle_fitness = [2]
    ∧ hasConverged scenarioA.1 = false
    ∧ hasConverged (postBestState scenarioA.1) = true
    ∧ (postBestState scenarioA.1).global_best_value = some 2
    ∧ (postBestState scenarioA.1).particles.map Particle.position = [⟨0, 0⟩]
    ∧ ∀ fuel : ℕ, runLoop rs0 (fuel+1) scenarioA.1 [] 0 scenarioA.2 =
        ⟨postBestState scenarioA.1, [], 0, scenarioA.2⟩ := by
  have h : hasConverged (postBestState scenarioA.1) = true := by
    with_unfolding_all decide
  refine ⟨by with_unfolding_all decide, by with_unfolding_all decide, h,
    by with_unfolding_all decide, by with_unfolding_all decide, fun fuel => ?_⟩
  simp [runLoop, h]

/-- C10: a pass of the loop whose post-best-update state converges
returns with the record and the counter untouched, and consequently at
the end of every run (started with empty record and counter zero) the
reported iteration count equals the length of the fitness record. -/
theorem claim_C10 (rs : ℕ → ℚ) :
    (∀ (fuel : ℕ) (s : SearchSpace) (rec : List (Option ℚ)) (it i : ℕ),
        hasConverged (postBestState s) = true →
        runLoop rs (fuel+1) s rec it i = ⟨postBestState s, rec, it, i⟩)
    ∧ ∀ (fuel : ℕ) (s : SearchSpace) (i : ℕ),
        (runLoop rs fuel s [] 0 i).iterations
          = (runLoop rs fuel s [] 0 i).fitness_record.length := by
  refine ⟨fun fuel s rec it i h => by simp [runLoop, h], fun fuel s i => ?_⟩
  have hlen := runLoop_record_length rs fuel s [] 0 i
  simpa using hlen.symm

/-- Witness for C10: the converging scenario-A pass keeps record and
counter untouched, and a concrete two-pass run reports as many
iterations as record entries. -/
theorem claim_C10_witness :
    runLoop rs0 1 scenarioA.1 [] 0 scenarioA.2 =
      ⟨postBestState scenarioA.1, [], 0, scenarioA.2⟩
    ∧ (runLoop rs0 2 scenarioA.1 [] 0 scenarioA.2).iterations
        = (runLoop rs0 2 scenarioA.1 [] 0 scenarioA.2).fitness_record.length :=
  ⟨(claim_C10 rs0).1 0 scenarioA.1 [] 0 scenarioA.2 (by with_unfolding_all decide),
   (claim_C10 rs0).2 2 scenarioA.1 scenarioA.2⟩

/-- Witness for C9 at a concrete configuration and stream. -/
theorem claim_C9_witness :
    runPSO 2 0 1 1 rs0 = runPSO 2 0 1 1 rs0
    ∧ stateAt rs0 (searchSpaceInit 2 0 1 rs0 0).1 (searchSpaceInit 2 0 1 rs0 0).2 1
        = stateAt rs0 (searchSpaceInit 2 0 1 rs0 0).1 (searchSpaceInit 2 0 1 rs0 0).2 1 :=
  ⟨(claim_C9 2 0 1 1 rs0 rs0 (fun _ => rfl)).1,
   (claim_C9 2 0 1 1 rs0 rs0 (fun _ => rfl)).2 1⟩

end PSO
